import Mathlib

/-
Verification of the expense-tracker backend (src/backend/expenses): two
resources (Task, Spend) exposed through Django REST framework ModelViewSets
with all-fields ModelSerializers (views.py, serializers.py), a DefaultRouter
routing table plus three auth paths (urls.py), and a registration serializer
delegating account creation to django.contrib.auth (serializers.py).

The Task and Spend model classes (models.py) and the three auth views are not
part of the provided source; where a claim needs them they are modelled from
the spec, which states that Task and Spend are opaque records with an implicit
identity field and that the auth views are declared but not implemented.
-/

set_option autoImplicit false

namespace Expenses

/-- Wire value appearing in a JSON request or response body. The concrete
column types of Task and Spend are unknown, so values are opaque scalars. -/
inductive Value where
  | str : String → Value
  | num : Int → Value
  | boolean : Bool → Value
  | null : Value
deriving DecidableEq, Repr

/-- Record data: a finite mapping from field names to values, as carried by a
wire payload or stored in a database row. -/
abbrev RecordData := List (String × Value)

/-- First-match association-list lookup, the access discipline for both
payloads and rows. -/
def lookupKey {α β : Type} [DecidableEq α] : List (α × β) → α → Option β
  | [], _ => none
  | (k, v) :: l, a => if a = k then some v else lookupKey l a

/-- Database table for one resource: rows keyed by the implicit identity
field, together with the next auto-assigned identity (Modelled from the spec:
Task and Spend are opaque records with an implicit identity field; the
concrete model classes are not in the provided source). -/
structure Store where
  nextId : Nat
  records : List (Nat × RecordData)
deriving DecidableEq, Repr

/-- Validation of serializers.py TaskSerializer / SpendSerializer
(ModelSerializer with fields set to all of the model's columns): when the
request is not a partial update, every writable field must be supplied;
a partial update imposes no presence requirement. -/
def isValidPayload (writable : List String) (partialFlag : Bool)
    (payload : RecordData) : Bool :=
  partialFlag || writable.all (fun f => (lookupKey payload f).isSome)

/-- Input conversion (to_internal_value of serializers.py) for the all-fields ModelSerializer:
the supplied payload restricted to the declared writable fields, values
passed through with no transformation. -/
def toInternalValue (writable : List String) (payload : RecordData) : RecordData :=
  match writable with
  | [] => []
  | f :: rest =>
      match lookupKey payload f with
      | some v => (f, v) :: toInternalValue rest payload
      | none => toInternalValue rest payload

/-- Output conversion (to_representation of serializers.py) for the all-fields ModelSerializer:
given a row, emit every declared field with its stored value. -/
def toRepresentation (fields : List String) (r : RecordData) : RecordData :=
  toInternalValue fields r

/-- Create handler of views.py TaskViewSet / SpendViewSet (ModelViewSet default
over the configured queryset and serializer, nothing overridden): validate
the payload, then insert a fresh row holding the validated data under the
next identity. Returns the new state and the created identity. -/
def createOp (writable : List String) (st : Store) (payload : RecordData) :
    Option (Store × Nat) :=
  if isValidPayload writable false payload then
    some ({ nextId := st.nextId + 1,
            records := (st.nextId, toInternalValue writable payload) :: st.records },
          st.nextId)
  else none

/-- Retrieve handler of views.py (ModelViewSet default): look the identity up in
the table; a missing row is a not-found condition, modelled as none. -/
def retrieveOp (st : Store) (i : Nat) : Option RecordData :=
  lookupKey st.records i

/-- List handler of views.py (ModelViewSet default over queryset all): every row
of the table, unfiltered. -/
def listOp (st : Store) : List (Nat × RecordData) :=
  st.records

/-- Row removal by identity, the effect of the destroy handler on the table. -/
def removeKey : List (Nat × RecordData) → Nat → List (Nat × RecordData)
  | [], _ => []
  | kv :: l, i => if kv.1 = i then removeKey l i else kv :: removeKey l i

/-- Destroy handler of views.py (ModelViewSet default): a missing row is a
not-found condition (none); otherwise the row is removed. -/
def deleteOp (st : Store) (i : Nat) : Option Store :=
  match lookupKey st.records i with
  | none => none
  | some _ => some { st with records := removeKey st.records i }

/-- Applying a validated partial payload to a row: every supplied field takes
its supplied value, every other field keeps its stored value. -/
def applyPatch (r patch : RecordData) : RecordData :=
  r.map (fun kv =>
    match lookupKey patch kv.1 with
    | some v => (kv.1, v)
    | none => kv)

/-- Update handler of views.py for PUT (ModelViewSet default, partial false):
the payload must supply every writable field; a missing row is a not-found
condition; otherwise the row's data is replaced by the validated payload. -/
def updateOp (writable : List String) (st : Store) (i : Nat)
    (payload : RecordData) : Option Store :=
  if isValidPayload writable false payload then
    match lookupKey st.records i with
    | none => none
    | some _ =>
        let updated := st.records.map
          (fun kv => if kv.1 = i then (i, toInternalValue writable payload) else kv)
        some { st with records := updated }
  else none

/-- Partial-update handler of views.py for PATCH (ModelViewSet default, partial
true): no presence requirement; the supplied fields are written onto the
existing row, the rest keep their values. -/
def partialUpdateOp (writable : List String) (st : Store) (i : Nat)
    (payload : RecordData) : Option Store :=
  match lookupKey st.records i with
  | none => none
  | some r =>
      let patched := st.records.map
        (fun kv =>
          if kv.1 = i then (i, applyPatch r (toInternalValue writable payload))
          else kv)
      some { st with records := patched }

/-! ### Routing layer (urls.py) -/

/-- HTTP method of a request. -/
inductive Method where
  | GET | POST | PUT | PATCH | DELETE
deriving DecidableEq, Repr

/-- ModelViewSet actions bound by the DefaultRouter. -/
inductive Operation where
  | listAll | create | retrieve | update | partialUpdate | destroy
deriving DecidableEq, Repr

/-- URL shape produced by the DefaultRouter for a registered viewset: the
collection path of a resource, or the member path carrying an identity. -/
inductive RouterPath where
  | collection : String → RouterPath
  | member : String → Nat → RouterPath
deriving DecidableEq, Repr

/-- Resources registered on the router. -/
inductive Resource where
  | task | spend
deriving DecidableEq, Repr

/-- Registrations of urls.py: router.register of tasks to TaskViewSet and spends to
SpendViewSet. -/
def registeredRoutes : List (String × Resource) :=
  [("tasks", Resource.task), ("spends", Resource.spend)]

/-- DefaultRouter binding on a collection path: GET to list, POST to create,
nothing else. -/
def collectionRoute : Method → Option Operation
  | Method.GET => some Operation.listAll
  | Method.POST => some Operation.create
  | _ => none

/-- DefaultRouter binding on a member path: GET to retrieve, PUT to update,
PATCH to partial-update, DELETE to destroy, nothing else. -/
def memberRoute : Method → Option Operation
  | Method.GET => some Operation.retrieve
  | Method.PUT => some Operation.update
  | Method.PATCH => some Operation.partialUpdate
  | Method.DELETE => some Operation.destroy
  | _ => none

/-- Dispatch of a request through the router: the resource is looked up by
its registered path fragment, the action by method and path shape. The
routing decision depends on nothing else: views.py declares no authorization,
filtering or business logic on either viewset. -/
def routeRequest (m : Method) (p : RouterPath) : Option (Resource × Operation) :=
  match p with
  | RouterPath.collection s =>
      match lookupKey registeredRoutes s, collectionRoute m with
      | some r, some o => some (r, o)
      | _, _ => none
  | RouterPath.member s _ =>
      match lookupKey registeredRoutes s, memberRoute m with
      | some r, some o => some (r, o)
      | _, _ => none

/-- Modelled from the spec: RegisterView, LoginView and LogoutView are auth
view implementations that are not present in the provided source; the spec
says they are declared and registered in the routing table with contract
unknown beyond name, so they are opaque handler tags here. -/
inductive AuthView where
  | RegisterView | LoginView | LogoutView
deriving DecidableEq, Repr

/-- An entry of urls.py urlpatterns: the router include, or one auth path. -/
inductive UrlEntry where
  | routerUrls : UrlEntry
  | authRoute : String → AuthView → UrlEntry
deriving DecidableEq, Repr

/-- The urls.py urlpatterns list: the router URLs followed by the register, login and
logout paths (the module binds exactly these four entries). -/
def urlpatterns : List UrlEntry :=
  [UrlEntry.routerUrls,
   UrlEntry.authRoute "register/" AuthView.RegisterView,
   UrlEntry.authRoute "login/" AuthView.LoginView,
   UrlEntry.authRoute "logout/" AuthView.LogoutView]

/-- Resolution of a POST against the auth paths of a urlpatterns list: first
matching auth path wins, the router include matches none of them. -/
def resolveAuthPath : List UrlEntry → String → Option AuthView
  | [], _ => none
  | UrlEntry.routerUrls :: rest, p => resolveAuthPath rest p
  | UrlEntry.authRoute q v :: rest, p =>
      if p = q then some v else resolveAuthPath rest p

/-! ### Registration (serializers.py RegisterSerializer) -/

/-- Credential as persisted on an account: either a raw password (never
produced by this code) or the hash computed by the external identity
facility. -/
inductive StoredCredential where
  | raw : String → StoredCredential
  | hashed : String → StoredCredential
deriving DecidableEq, Repr

/-- Account record of the external identity facility
(django.contrib.auth.models.User): username, email, stored credential. -/
structure UserRecord where
  username : String
  email : String
  password : StoredCredential
deriving DecidableEq, Repr

/-- Account table of the external identity facility. -/
abbrev UserStore := List UserRecord

/-- Modelled from the spec: User.objects.create_user of the external identity
facility, which the spec says hashes the password, persists the account and
enforces username uniqueness. Fails when the username is taken; otherwise
stores the account with the hashed credential and returns it. -/
def createUser (username email password : String) (db : UserStore) :
    Option (UserRecord × UserStore) :=
  if db.any (fun u => u.username = username) then none
  else
    let u : UserRecord := ⟨username, email, StoredCredential.hashed password⟩
    some (u, u :: db)

/-- Validated registration input: username and password are required fields,
email is optional. -/
structure RegisterInput where
  username : String
  email : Option String
  password : String
deriving DecidableEq, Repr

/-- Account creation (serializers.py RegisterSerializer.create): calls
User.objects.create_user with the username, the email defaulted to the empty
string when absent (validated_data.get), and the raw password, and returns
the created user. -/
def RegisterSerializer.create (vd : RegisterInput) (db : UserStore) :
    Option (UserRecord × UserStore) :=
  createUser vd.username (vd.email.getD "") vd.password db

/-- Field declarations of serializers.py RegisterSerializer: Meta.fields lists
username, email and password, and the password field is declared
write_only (the Bool flag). -/
def registerSerializerFields : List (String × Bool) :=
  [("username", false), ("email", false), ("password", true)]

/-- Readable value of an account field, as emitted on the wire. -/
def registerFieldValue (u : UserRecord) : String → Value
  | "username" => Value.str u.username
  | "email" => Value.str u.email
  | _ => Value.null

/-- Output representation of serializers.py RegisterSerializer: every declared
field that is not write_only, with its account value. -/
def RegisterSerializer.toRepresentation (u : UserRecord) : RecordData :=
  (registerSerializerFields.filter (fun fw => !fw.2)).map
    (fun fw => (fw.1, registerFieldValue u fw.1))

/-! ### Request sequences over a resource store -/

/-- One mutating request against a resource, as dispatched by the router to
the ModelViewSet handlers. -/
inductive Req where
  | createReq (writable : List String) (payload : RecordData)
  | updateReq (writable : List String) (i : Nat) (payload : RecordData)
  | patchReq (writable : List String) (i : Nat) (payload : RecordData)
  | deleteReq (i : Nat)
deriving DecidableEq, Repr

/-- State after handling one request; a failed request (invalid payload or
not-found identity) leaves the table unchanged. -/
def applyReq (st : Store) : Req → Store
  | Req.createReq w p =>
      match createOp w st p with
      | some (st', _) => st'
      | none => st
  | Req.updateReq w i p => (updateOp w st i p).getD st
  | Req.patchReq w i p => (partialUpdateOp w st i p).getD st
  | Req.deleteReq i => (deleteOp st i).getD st

/-- State after a sequence of requests. -/
def applyReqs (st : Store) (reqs : List Req) : Store :=
  reqs.foldl applyReq st

/-- Well-formed table: every row identity is below the next auto-assigned
identity, as maintained by the auto-increment discipline. -/
def wellFormed (st : Store) : Bool :=
  st.records.all (fun kv => kv.1 < st.nextId)

/-! ### Association-list lemmas -/

theorem lookupKey_toInternalValue_of_none (w : List String) (p : RecordData)
    (f : String) (h : lookupKey p f = none) :
    lookupKey (toInternalValue w p) f = none := by
  induction w with
  | nil => rfl
  | cons g rest ih =>
      simp only [toInternalValue]
      cases hg : lookupKey p g with
      | none => exact ih
      | some v =>
          simp only [lookupKey]
          by_cases hfg : f = g
          · subst hfg; rw [h] at hg; exact absurd hg (by simp)
          · simp [hfg, ih]

theorem lookupKey_toInternalValue_mem (w : List String) (p : RecordData)
    (f : String) (hf : f ∈ w) :
    lookupKey (toInternalValue w p) f = lookupKey p f := by
  induction w with
  | nil => cases hf
  | cons g rest ih =>
      simp only [toInternalValue]
      by_cases hfg : f = g
      · subst hfg
        cases hg : lookupKey p f with
        | none => exact lookupKey_toInternalValue_of_none rest p f hg
        | some v => simp [lookupKey]
      · have hf' : f ∈ rest := by
          rcases List.mem_cons.1 hf with h | h
          · exact absurd h hfg
          · exact h
        cases hg : lookupKey p g with
        | none => exact ih hf'
        | some v => simp [lookupKey, hfg, ih hf']

theorem lookupKey_removeKey (l : List (Nat × RecordData)) (i : Nat) :
    lookupKey (removeKey l i) i = none := by
  induction l with
  | nil => rfl
  | cons kv l ih =>
      simp only [removeKey]
      by_cases hk : kv.1 = i
      · simp [hk, ih]
      · have : ¬ i = kv.1 := fun h => hk h.symm
        simp [hk, lookupKey, this, ih]

theorem lookupKey_map_replace (l : List (Nat × RecordData)) (i : Nat)
    (d r : RecordData) (h : lookupKey l i = some r) :
    lookupKey (l.map (fun kv => if kv.1 = i then (i, d) else kv)) i = some d := by
  induction l with
  | nil => simp [lookupKey] at h
  | cons kv l ih =>
      simp only [List.map_cons]
      by_cases hk : kv.1 = i
      · rw [if_pos hk]
        simp [lookupKey]
      · rw [if_neg hk]
        have hik : ¬ i = kv.1 := fun h' => hk h'.symm
        simp only [lookupKey, if_neg hik] at h
        simp only [lookupKey, if_neg hik]
        exact ih h

theorem lookupKey_applyPatch_of_none (r patch : RecordData) (f : String)
    (h : lookupKey patch f = none) :
    lookupKey (applyPatch r patch) f = lookupKey r f := by
  induction r with
  | nil => rfl
  | cons kv r ih =>
      simp only [applyPatch, List.map, lookupKey]
      by_cases hf : f = kv.1
      · subst hf
        rw [h]
        simp [lookupKey]
      · cases hp : lookupKey patch kv.1 with
        | none => simp only [lookupKey, if_neg hf]; exact ih
        | some v => simp only [lookupKey, if_neg hf]; exact ih

theorem lookupKey_eq_some_mem (l : List (Nat × RecordData)) (i : Nat)
    (r : RecordData) (h : lookupKey l i = some r) : (i, r) ∈ l := by
  induction l with
  | nil => simp [lookupKey] at h
  | cons kv l ih =>
      simp only [lookupKey] at h
      by_cases hk : i = kv.1
      · rw [if_pos hk] at h
        have h2 : kv.2 = r := Option.some.inj h
        subst hk
        rw [← h2]
        exact List.mem_cons_self _ _
      · rw [if_neg hk] at h
        exact List.mem_cons_of_mem _ (ih h)

theorem lookupKey_map_keyFixed_none (l : List (Nat × RecordData))
    (f : Nat × RecordData → Nat × RecordData) (i : Nat)
    (hf : ∀ kv, (f kv).1 = kv.1) (h : lookupKey l i = none) :
    lookupKey (l.map f) i = none := by
  induction l with
  | nil => rfl
  | cons kv l ih =>
      simp only [lookupKey] at h
      by_cases hk : i = kv.1
      · rw [if_pos hk] at h; cases h
      · rw [if_neg hk] at h
        simp only [List.map_cons, lookupKey, hf kv, if_neg hk]
        exact ih h

theorem lookupKey_removeKey_none (l : List (Nat × RecordData)) (i j : Nat)
    (h : lookupKey l i = none) : lookupKey (removeKey l j) i = none := by
  induction l with
  | nil => rfl
  | cons kv l ih =>
      simp only [lookupKey] at h
      by_cases hk : i = kv.1
      · rw [if_pos hk] at h; cases h
      · rw [if_neg hk] at h
        simp only [removeKey]
        by_cases hj : kv.1 = j
        · rw [if_pos hj]; exact ih h
        · rw [if_neg hj]
          simp only [lookupKey, if_neg hk]
          exact ih h

theorem applyReq_preserves_absent (st : Store) (q : Req) (i : Nat)
    (hi : i < st.nextId) (h : retrieveOp st i = none) :
    retrieveOp (applyReq st q) i = none ∧ i < (applyReq st q).nextId := by
  cases q with
  | createReq w p =>
      simp only [applyReq, createOp]
      by_cases hv : isValidPayload w false p = true
      · simp only [if_pos hv]
        refine ⟨?_, Nat.lt_succ_of_lt hi⟩
        simp only [retrieveOp, lookupKey]
        rw [if_neg (Nat.ne_of_lt hi)]
        exact h
      · simp only [if_neg hv]
        exact ⟨h, hi⟩
  | updateReq w j p =>
      simp only [applyReq, updateOp]
      by_cases hv : isValidPayload w false p = true
      · simp only [if_pos hv]
        cases hj : lookupKey st.records j with
        | none => exact ⟨h, hi⟩
        | some r =>
            refine ⟨?_, hi⟩
            simp only [Option.getD_some, retrieveOp]
            refine lookupKey_map_keyFixed_none _ _ _ ?_ h
            intro kv
            by_cases hk : kv.1 = j
            · simp [hk]
            · simp [hk]
      · simp only [if_neg hv]
        exact ⟨h, hi⟩
  | patchReq w j p =>
      simp only [applyReq, partialUpdateOp]
      cases hj : lookupKey st.records j with
      | none => exact ⟨h, hi⟩
      | some r =>
          refine ⟨?_, hi⟩
          simp only [Option.getD_some, retrieveOp]
          refine lookupKey_map_keyFixed_none _ _ _ ?_ h
          intro kv
          by_cases hk : kv.1 = j
          · simp [hk]
          · simp [hk]
  | deleteReq j =>
      simp only [applyReq, deleteOp]
      cases hj : lookupKey st.records j with
      | none => exact ⟨h, hi⟩
      | some r =>
          refine ⟨?_, hi⟩
          simp only [Option.getD_some, retrieveOp]
          exact lookupKey_removeKey_none _ _ _ h

theorem applyReqs_preserves_absent (reqs : List Req) (st : Store) (i : Nat)
    (hi : i < st.nextId) (h : retrieveOp st i = none) :
    retrieveOp (applyReqs st reqs) i = none := by
  induction reqs generalizing st with
  | nil => exact h
  | cons q reqs ih =>
      have step := applyReq_preserves_absent st q i hi h
      exact ih (applyReq st q) step.2 step.1

/-! ### Claims -/

/-- Claim C1: for every valid Task or Spend payload (the two resources share
the same configured handlers, generic in the writable field list), a
successful create followed by retrieve of the returned identity yields
exactly the created record, and that record agrees with the payload on every
writable field. -/
theorem create_then_retrieve_roundTrip (w : List String) (st : Store)
    (p : RecordData) (st' : Store) (i : Nat)
    (h : createOp w st p = some (st', i)) :
    retrieveOp st' i = some (toInternalValue w p) ∧
      ∀ f ∈ w, lookupKey (toInternalValue w p) f = lookupKey p f := by
  simp only [createOp] at h
  by_cases hv : isValidPayload w false p = true
  · rw [if_pos hv] at h
    have h1 := Option.some.inj h
    have hst : _ = st' := congrArg Prod.fst h1
    have hi : _ = i := congrArg Prod.snd h1
    subst hst
    subst hi
    refine ⟨?_, fun f hf => lookupKey_toInternalValue_mem w p f hf⟩
    simp [retrieveOp, lookupKey]
  · rw [if_neg hv] at h
    cases h

/-- Witness for C1 at a concrete payload. -/
theorem create_then_retrieve_roundTrip_witness :
    createOp ["title", "amount"] (Store.mk 0 [])
        [("title", Value.str "x"), ("amount", Value.num 5)] =
      some (Store.mk 1 [(0, [("title", Value.str "x"), ("amount", Value.num 5)])], 0) ∧
    (retrieveOp (Store.mk 1 [(0, [("title", Value.str "x"), ("amount", Value.num 5)])]) 0 =
        some (toInternalValue ["title", "amount"]
          [("title", Value.str "x"), ("amount", Value.num 5)]) ∧
      ∀ f ∈ ["title", "amount"],
        lookupKey (toInternalValue ["title", "amount"]
            [("title", Value.str "x"), ("amount", Value.num 5)]) f =
          lookupKey [("title", Value.str "x"), ("amount", Value.num 5)] f) :=
  ⟨by decide,
    create_then_retrieve_roundTrip ["title", "amount"] (Store.mk 0 [])
      [("title", Value.str "x"), ("amount", Value.num 5)]
      (Store.mk 1 [(0, [("title", Value.str "x"), ("amount", Value.num 5)])]) 0
      (by decide)⟩

/-- Claim C2: the DefaultRouter maps GET and POST on each registered
collection path to the list and create actions, GET, PUT, PATCH and DELETE
on each member path to retrieve, update, partial-update and destroy, and
binds no other method on either path shape; the decision depends only on
method and path, the viewsets declaring no authorization, filtering or
business logic. -/
theorem router_table :
    (routeRequest Method.GET (RouterPath.collection "tasks") =
        some (Resource.task, Operation.listAll)) ∧
    (routeRequest Method.POST (RouterPath.collection "tasks") =
        some (Resource.task, Operation.create)) ∧
    (routeRequest Method.PUT (RouterPath.collection "tasks") = none) ∧
    (routeRequest Method.PATCH (RouterPath.collection "tasks") = none) ∧
    (routeRequest Method.DELETE (RouterPath.collection "tasks") = none) ∧
    (routeRequest Method.GET (RouterPath.collection "spends") =
        some (Resource.spend, Operation.listAll)) ∧
    (routeRequest Method.POST (RouterPath.collection "spends") =
        some (Resource.spend, Operation.create)) ∧
    (routeRequest Method.PUT (RouterPath.collection "spends") = none) ∧
    (routeRequest Method.PATCH (RouterPath.collection "spends") = none) ∧
    (routeRequest Method.DELETE (RouterPath.collection "spends") = none) ∧
    (∀ i, routeRequest Method.GET (RouterPath.member "tasks" i) =
        some (Resource.task, Operation.retrieve)) ∧
    (∀ i, routeRequest Method.PUT (RouterPath.member "tasks" i) =
        some (Resource.task, Operation.update)) ∧
    (∀ i, routeRequest Method.PATCH (RouterPath.member "tasks" i) =
        some (Resource.task, Operation.partialUpdate)) ∧
    (∀ i, routeRequest Method.DELETE (RouterPath.member "tasks" i) =
        some (Resource.task, Operation.destroy)) ∧
    (∀ i, routeRequest Method.POST (RouterPath.member "tasks" i) = none) ∧
    (∀ i, routeRequest Method.GET (RouterPath.member "spends" i) =
        some (Resource.spend, Operation.retrieve)) ∧
    (∀ i, routeRequest Method.PUT (RouterPath.member "spends" i) =
        some (Resource.spend, Operation.update)) ∧
    (∀ i, routeRequest Method.PATCH (RouterPath.member "spends" i) =
        some (Resource.spend, Operation.partialUpdate)) ∧
    (∀ i, routeRequest Method.DELETE (RouterPath.member "spends" i) =
        some (Resource.spend, Operation.destroy)) ∧
    (∀ i, routeRequest Method.POST (RouterPath.member "spends" i) = none) := by
  refine ⟨?_, ?_, ?_, ?_, ?_, ?_, ?_, ?_, ?_, ?_,
    ?_, ?_, ?_, ?_, ?_, ?_, ?_, ?_, ?_, ?_⟩ <;>
    first
      | decide
      | (intro i; rfl)

/-- Claim C3: the urlpatterns table carries the router include plus exactly
the three auth paths, each resolving to its view (spec-modelled: the view
implementations are absent from the provided source), so the routing module
is well-formed with the three endpoints registered. -/
theorem auth_routes_registered :
    resolveAuthPath urlpatterns "register/" = some AuthView.RegisterView ∧
    resolveAuthPath urlpatterns "login/" = some AuthView.LoginView ∧
    resolveAuthPath urlpatterns "logout/" = some AuthView.LogoutView ∧
    urlpatterns.length = 4 := by
  refine ⟨?_, ?_, ?_, ?_⟩ <;> decide

/-- Claim C4: a successful registration returns the created account,
persists exactly that account, and its stored credential is the hash
produced by the external identity facility from the submitted password,
never the raw password. -/
theorem register_delegates_hashing (vd : RegisterInput) (db : UserStore)
    (u : UserRecord) (db' : UserStore)
    (h : RegisterSerializer.create vd db = some (u, db')) :
    u.password = StoredCredential.hashed vd.password ∧
      db' = u :: db ∧
      ∀ c, u.password ≠ StoredCredential.raw c := by
  simp only [RegisterSerializer.create, createUser] at h
  by_cases hdup : db.any (fun w => w.username = vd.username) = true
  · rw [if_pos hdup] at h
    cases h
  · rw [if_neg hdup] at h
    have h1 := Option.some.inj h
    have hu : u = ⟨vd.username, vd.email.getD "",
        StoredCredential.hashed vd.password⟩ :=
      (congrArg Prod.fst h1).symm
    have hdb : db' = ⟨vd.username, vd.email.getD "",
        StoredCredential.hashed vd.password⟩ :: db :=
      (congrArg Prod.snd h1).symm
    subst hu
    subst hdb
    exact ⟨rfl, rfl, fun c hc => StoredCredential.noConfusion hc⟩

/-- Witness for C4 at a concrete registration. -/
theorem register_delegates_hashing_witness :
    RegisterSerializer.create (RegisterInput.mk "alice" (some "a@b.c") "pw") [] =
      some (UserRecord.mk "alice" "a@b.c" (StoredCredential.hashed "pw"),
            [UserRecord.mk "alice" "a@b.c" (StoredCredential.hashed "pw")]) ∧
    ((UserRecord.mk "alice" "a@b.c" (StoredCredential.hashed "pw")).password =
        StoredCredential.hashed "pw" ∧
      [UserRecord.mk "alice" "a@b.c" (StoredCredential.hashed "pw")] =
        UserRecord.mk "alice" "a@b.c" (StoredCredential.hashed "pw") :: [] ∧
      ∀ c, (UserRecord.mk "alice" "a@b.c" (StoredCredential.hashed "pw")).password ≠
        StoredCredential.raw c) :=
  ⟨by decide,
    register_delegates_hashing (RegisterInput.mk "alice" (some "a@b.c") "pw") []
      (UserRecord.mk "alice" "a@b.c" (StoredCredential.hashed "pw"))
      [UserRecord.mk "alice" "a@b.c" (StoredCredential.hashed "pw")]
      (by decide)⟩

/-- Claim C5: after a successful delete of an identity in a well-formed
table, every subsequent retrieve of that identity fails with the not-found
condition, whatever further sequence of requests is handled in between. -/
theorem delete_then_retrieve_notFound (st : Store) (i : Nat) (st' : Store)
    (reqs : List Req) (hwf : wellFormed st = true)
    (h : deleteOp st i = some st') :
    retrieveOp (applyReqs st' reqs) i = none := by
  simp only [deleteOp] at h
  cases hj : lookupKey st.records i with
  | none =>
      rw [hj] at h
      cases h
  | some r =>
      rw [hj] at h
      have hst : st' = { st with records := removeKey st.records i } :=
        (Option.some.inj h).symm
      have hmem := lookupKey_eq_some_mem _ _ _ hj
      have hi : i < st.nextId := by
        have hall := List.all_eq_true.1 hwf _ hmem
        exact of_decide_eq_true hall
      subst hst
      exact applyReqs_preserves_absent reqs _ i hi (lookupKey_removeKey _ i)

/-- Witness for C5: delete a record, then create another; the deleted
identity stays unretrievable. -/
theorem delete_then_retrieve_notFound_witness :
    wellFormed (Store.mk 1 [(0, [("a", Value.num 1)])]) = true ∧
    deleteOp (Store.mk 1 [(0, [("a", Value.num 1)])]) 0 = some (Store.mk 1 []) ∧
    retrieveOp
        (applyReqs (Store.mk 1 []) [Req.createReq ["a"] [("a", Value.num 2)]]) 0 =
      none :=
  ⟨by decide, by decide,
    delete_then_retrieve_notFound (Store.mk 1 [(0, [("a", Value.num 1)])]) 0
      (Store.mk 1 []) [Req.createReq ["a"] [("a", Value.num 2)]]
      (by decide) (by decide)⟩

/-- Claim C6: a successful PATCH leaves every field not supplied in the
request unchanged on the targeted record, and a successful PUT requires
every writable field to have been supplied. -/
theorem patch_frame_put_requires_all (w : List String) (st : Store) (i : Nat)
    (payload : RecordData) :
    (∀ st' r f, partialUpdateOp w st i payload = some st' →
        retrieveOp st i = some r → lookupKey payload f = none →
        ∃ r', retrieveOp st' i = some r' ∧ lookupKey r' f = lookupKey r f) ∧
    (∀ st', updateOp w st i payload = some st' →
        ∀ f ∈ w, (lookupKey payload f).isSome = true) := by
  constructor
  · intro st' r f hpatch hret hnone
    simp only [retrieveOp] at hret
    simp only [partialUpdateOp, hret] at hpatch
    have hst : _ = st' := Option.some.inj hpatch
    subst hst
    refine ⟨applyPatch r (toInternalValue w payload), ?_, ?_⟩
    · exact lookupKey_map_replace st.records i _ r hret
    · exact lookupKey_applyPatch_of_none r _ f
        (lookupKey_toInternalValue_of_none w payload f hnone)
  · intro st' hupd f hf
    simp only [updateOp] at hupd
    by_cases hv : isValidPayload w false payload = true
    · have hv' : w.all (fun g => (lookupKey payload g).isSome) = true := by
        simpa [isValidPayload] using hv
      exact List.all_eq_true.1 hv' f hf
    · rw [if_neg hv] at hupd
      cases hupd

/-- Witness for C6: patching one field of a two-field record leaves the
other unchanged, and a PUT that succeeded supplied every writable field. -/
theorem patch_frame_put_requires_all_witness :
    (∃ r', retrieveOp (Store.mk 1 [(0, [("a", Value.num 9), ("b", Value.num 2)])]) 0 =
        some r' ∧
      lookupKey r' "b" = lookupKey [("a", Value.num 1), ("b", Value.num 2)] "b") ∧
    (lookupKey [("a", Value.num 9), ("b", Value.num 8)] "a").isSome = true := by
  have h := patch_frame_put_requires_all ["a", "b"]
    (Store.mk 1 [(0, [("a", Value.num 1), ("b", Value.num 2)])]) 0
    [("a", Value.num 9)]
  have h2 := patch_frame_put_requires_all ["a", "b"]
    (Store.mk 1 [(0, [("a", Value.num 1), ("b", Value.num 2)])]) 0
    [("a", Value.num 9), ("b", Value.num 8)]
  refine ⟨?_, ?_⟩
  · exact h.1 (Store.mk 1 [(0, [("a", Value.num 9), ("b", Value.num 2)])])
      [("a", Value.num 1), ("b", Value.num 2)] "b" (by decide) (by decide) (by decide)
  · exact h2.2 (Store.mk 1 [(0, [("a", Value.num 9), ("b", Value.num 8)])])
      (by decide) "a" (by decide)

/-- Claim C7: the registration serializer's output representation never
contains the password field, and is unchanged under any change of the stored
credential, whatever its value: the password is write-only. -/
theorem password_writeOnly (u : UserRecord) :
    lookupKey (RegisterSerializer.toRepresentation u) "password" = none ∧
    ∀ c, RegisterSerializer.toRepresentation { u with password := c } =
      RegisterSerializer.toRepresentation u := by
  constructor
  · rfl
  · intro c
    rfl

/-- Claim C8: the all-fields resource serializer exposes every declared
field of a record in its output representation, accepts every writable field
of a payload with the value passed through unchanged, and its validation is
exactly the framework presence check over the writable fields. -/
theorem allFields_serializer (fields w : List String) (r p : RecordData) :
    (∀ f ∈ fields, lookupKey (toRepresentation fields r) f = lookupKey r f) ∧
    (∀ f ∈ w, lookupKey (toInternalValue w p) f = lookupKey p f) ∧
    isValidPayload w false p = w.all (fun f => (lookupKey p f).isSome) := by
  refine ⟨?_, ?_, ?_⟩
  · intro f hf
    exact lookupKey_toInternalValue_mem fields r f hf
  · intro f hf
    exact lookupKey_toInternalValue_mem w p f hf
  · simp [isValidPayload]

/-- Witness for C8 at a concrete record and payload. -/
theorem allFields_serializer_witness :
    lookupKey (toRepresentation ["id", "a"] [("id", Value.num 1), ("a", Value.num 2)])
        "a" =
      lookupKey [("id", Value.num 1), ("a", Value.num 2)] "a" ∧
    lookupKey (toInternalValue ["a"] [("a", Value.num 2)]) "a" =
      lookupKey [("a", Value.num 2)] "a" ∧
    isValidPayload ["a"] false [("a", Value.num 2)] =
      ["a"].all (fun f => (lookupKey [("a", Value.num 2)] f).isSome) := by
  have h := allFields_serializer ["id", "a"] ["a"]
    [("id", Value.num 1), ("a", Value.num 2)] [("a", Value.num 2)]
  exact ⟨h.1 "a" (by decide), h.2.1 "a" (by decide), h.2.2⟩

/-- Claim C9: once registration with a username has succeeded, a second
registration with the same username fails, the external identity facility
enforcing uniqueness. -/
theorem duplicate_username_fails (vd1 vd2 : RegisterInput) (db : UserStore)
    (u : UserRecord) (db' : UserStore)
    (h : RegisterSerializer.create vd1 db = some (u, db'))
    (hsame : vd2.username = vd1.username) :
    RegisterSerializer.create vd2 db' = none := by
  simp only [RegisterSerializer.create, createUser] at h ⊢
  by_cases hdup : db.any (fun x => x.username = vd1.username) = true
  · rw [if_pos hdup] at h
    cases h
  · rw [if_neg hdup] at h
    have hdb : _ = db' := congrArg Prod.snd (Option.some.inj h)
    subst hdb
    have hany : (UserRecord.mk vd1.username (vd1.email.getD "")
          (StoredCredential.hashed vd1.password) :: db).any
        (fun x => x.username = vd2.username) = true := by
      simp [hsame]
    rw [if_pos hany]

/-- Witness for C9: registering bob twice, the second attempt fails. -/
theorem duplicate_username_fails_witness :
    RegisterSerializer.create (RegisterInput.mk "bob" none "pw1") [] =
      some (UserRecord.mk "bob" "" (StoredCredential.hashed "pw1"),
            [UserRecord.mk "bob" "" (StoredCredential.hashed "pw1")]) ∧
    (RegisterInput.mk "bob" (some "b@c.d") "pw2").username =
      (RegisterInput.mk "bob" none "pw1").username ∧
    RegisterSerializer.create (RegisterInput.mk "bob" (some "b@c.d") "pw2")
      [UserRecord.mk "bob" "" (StoredCredential.hashed "pw1")] = none :=
  ⟨by decide, by decide,
    duplicate_username_fails (RegisterInput.mk "bob" none "pw1")
      (RegisterInput.mk "bob" (some "b@c.d") "pw2") []
      (UserRecord.mk "bob" "" (StoredCredential.hashed "pw1"))
      [UserRecord.mk "bob" "" (StoredCredential.hashed "pw1")]
      (by decide) (by decide)⟩

/-- Claim C10: a registration input without an email still succeeds when the
username is free, and the created account's email is the empty string: the
missing email is coerced to the empty string, not left null or rejected. -/
theorem missing_email_coerced_empty (vd : RegisterInput) (db : UserStore)
    (hemail : vd.email = none)
    (hfree : db.any (fun x => x.username = vd.username) = false) :
    RegisterSerializer.create vd db =
      some (UserRecord.mk vd.username "" (StoredCredential.hashed vd.password),
            UserRecord.mk vd.username "" (StoredCredential.hashed vd.password) :: db) := by
  simp [RegisterSerializer.create, createUser, hemail, hfree]

/-- Witness for C10: registering carol with no email stores the empty
string. -/
theorem missing_email_coerced_empty_witness :
    (RegisterInput.mk "carol" none "pw").email = none ∧
    ([] : UserStore).any
      (fun x => x.username = (RegisterInput.mk "carol" none "pw").username) = false ∧
    RegisterSerializer.create (RegisterInput.mk "carol" none "pw") [] =
      some (UserRecord.mk "carol" "" (StoredCredential.hashed "pw"),
            UserRecord.mk "carol" "" (StoredCredential.hashed "pw") :: []) :=
  ⟨by decide, by decide,
    missing_email_coerced_empty (RegisterInput.mk "carol" none "pw") []
      (by decide) (by decide)⟩

end Expenses
